import Mathlib

/-!
# Verification of the mender-shell configuration pipeline

Shallow embedding of `config/config.go` (configuration loading, merging and
validation) from the mender-shell repository, together with theorems checking
the natural-language specification against it.

Modelling notes:
* Go's distinction between a `nil` slice and a present slice is kept by giving
  the `Servers` field the type `Option (List MenderServer)`: `none` models the
  `nil` slice, `some l` a present (possibly empty) slice.
* `Validate` mutates the receiver in place and returns an `error`; we model it
  as a function returning the (possibly unchanged) configuration together with
  an optional error message, so that the "unchanged on failure" behaviour is
  visible.
* File-system access in `LoadConfig` is abstracted: the two path arguments are
  replaced by the state of the file found at each path (missing, unreadable,
  malformed JSON, or successfully decoded fields).
-/

namespace https

/-- The `https.Client` collaborator.  Only the fields that
`config/config.go` reads (`Certificate`, `Key`) are part of this core. -/
structure Client where
  Certificate : String
  Key : String
deriving DecidableEq, Repr

/-- Modelled from the spec: the HTTPS client capability's own validation step
is opaque to this core; the spec's contract is that it "mutates/normalizes
itself, may warn but ... does not fail the overall load" and that the
certificate / key presence queried afterwards reflects the configured values.
The body of `https.Client.Validate` is not part of `src/`, so it is modelled
as the normalization that leaves the certificate and key fields as configured. -/
def Client.Validate (c : Client) : Client := c

/-- One server descriptor (`https.MenderServer`): holds at least a URL. -/
structure MenderServer where
  ServerURL : String
deriving DecidableEq, Repr

/-- The `https.Config` consumed by the transport layer. -/
structure Config where
  ServerCert : String
  IsHTTPS : Bool
  Client : Option https.Client
  NoVerify : Bool
deriving DecidableEq, Repr

end https

/-- `const httpsSchema = "https"` -/
def httpsSchema : String := "https"

/-- `MenderShellConfigFromFile`/`MenderShellConfig`: the configuration
settings (the Go wrapper struct adds no further fields, so the embedded
struct is flattened). -/
structure MenderShellConfig where
  ClientProtocol : String
  HTTPSClient : https.Client
  SkipVerify : Bool
  ServerCertificate : String
  ServerURL : String
  Servers : Option (List https.MenderServer)
  ShellCommand : String
  User : String
deriving DecidableEq, Repr

/-- `NewMenderShellConfig`: zero-valued configuration (Go zero values). -/
def NewMenderShellConfig : MenderShellConfig :=
  { ClientProtocol := ""
    HTTPSClient := { Certificate := "", Key := "" }
    SkipVerify := false
    ServerCertificate := ""
    ServerURL := ""
    Servers := none
    ShellCommand := ""
    User := "" }

/-- The per-entry normalization step of `Validate`'s loop:
`if strings.HasSuffix(url, "/") { url = strings.TrimSuffix(url, "/") }` —
trim one possible `/` suffix.  For the one-character suffix `"/"`,
`strings.HasSuffix` holds exactly when the last character is `'/'` and
`strings.TrimSuffix` then removes that last character, which is how the
pair is rendered here (on the string's character list, so that it
computes by kernel reduction). -/
def trimServerURL (u : String) : String :=
  if u.data.getLast? = some '/' then String.mk u.data.dropLast else u

/-- Apply `trimServerURL` to a server entry. -/
def normalizeServer (s : https.MenderServer) : https.MenderServer :=
  { s with ServerURL := trimServerURL s.ServerURL }

/-- The tail of `Validate` after the `Servers`/`ServerURL` case split: the
normalization loop over `c.Servers` followed by `c.HTTPSClient.Validate()`,
returning `nil`. -/
def finishValidate (c : MenderShellConfig) : Option String × MenderShellConfig :=
  let c := { c with Servers := c.Servers.map (List.map normalizeServer) }
  let c := { c with HTTPSClient := c.HTTPSClient.Validate }
  (none, c)

/-- `func (c *MenderShellConfig) Validate() error`: if `Servers` is `nil`,
synthesize a one-element server list from the legacy `ServerURL`; otherwise,
if `ServerURL` is also non-empty, fail with the conflict error before any
normalization; in the non-error cases run the normalization loop and the
HTTPS client's own validation.  The first component is the returned error
(`none` = `nil`), the second the configuration after the call. -/
def MenderShellConfig.Validate (c : MenderShellConfig) :
    Option String × MenderShellConfig :=
  match c.Servers with
  | none =>
      finishValidate { c with Servers := some [{ ServerURL := c.ServerURL }] }
  | some _ =>
      if c.ServerURL ≠ "" then
        (some "Both Servers AND ServerURL given in mender-shell.conf", c)
      else
        finishValidate c

/-- The fields a single JSON configuration file sets: `json.Unmarshal` into
the in-progress struct assigns exactly the keys present in the file and
leaves absent keys at their previous values, so one decoded file is one
`Option` per configuration field (`none` = key absent). -/
structure ConfigFileFields where
  ClientProtocol : Option String := none
  HTTPSClient : Option https.Client := none
  SkipVerify : Option Bool := none
  ServerCertificate : Option String := none
  ServerURL : Option String := none
  Servers : Option (List https.MenderServer) := none
  ShellCommand : Option String := none
  User : Option String := none
deriving DecidableEq, Repr

/-- Merge one decoded file into the in-progress configuration: keys present
in the file overwrite, absent keys leave the previous value untouched
(`json.Unmarshal` into an existing struct). -/
def mergeFields (c : MenderShellConfig) (p : ConfigFileFields) : MenderShellConfig :=
  { ClientProtocol := p.ClientProtocol.getD c.ClientProtocol
    HTTPSClient := p.HTTPSClient.getD c.HTTPSClient
    SkipVerify := p.SkipVerify.getD c.SkipVerify
    ServerCertificate := p.ServerCertificate.getD c.ServerCertificate
    ServerURL := p.ServerURL.getD c.ServerURL
    Servers := p.Servers.orElse fun _ => c.Servers
    ShellCommand := p.ShellCommand.getD c.ShellCommand
    User := p.User.getD c.User }

/-- What `readConfigFile` finds in a file that exists: an I/O read failure,
a `*json.SyntaxError` from `json.Unmarshal`, some other decode error, or a
successfully decoded set of fields. -/
inductive FileData where
  | readErr (msg : String)
  | syntaxErr (msg : String)
  | decodeErr (msg : String)
  | fields (p : ConfigFileFields)
deriving DecidableEq, Repr

/-- The state of the file system at one configuration path: `os.Stat`
reports the file missing, or the file exists with the given data. -/
inductive ConfigFile where
  | missing
  | present (d : FileData)
deriving DecidableEq, Repr

/-- `func readConfigFile(config interface, fileName string) error`:
propagate read errors as-is; wrap `*json.SyntaxError` and other decode
errors in their distinguishing messages; on success unmarshal (merge) the
file's fields into the configuration. -/
def readConfigFile (d : FileData) (c : MenderShellConfig) :
    Except String MenderShellConfig :=
  match d with
  | .readErr msg => .error msg
  | .syntaxErr msg => .error ("Error parsing mender configuration file: " ++ msg)
  | .decodeErr msg => .error ("Error parsing config file: " ++ msg)
  | .fields p => .ok (mergeFields c p)

/-- `func loadConfigFile(configFile string, config *MenderShellConfig,
filesLoadedCount *int) error`: a missing file is skipped silently; an
existing file is read and merged, incrementing the loaded-file count. -/
def loadConfigFile (file : ConfigFile) (c : MenderShellConfig) (count : Nat) :
    Except String (MenderShellConfig × Nat) :=
  match file with
  | .missing => .ok (c, count)
  | .present d =>
      match readConfigFile d c with
      | .error e => .error e
      | .ok c' => .ok (c', count + 1)

/-- `func LoadConfig(mainConfigFile string, fallbackConfigFile string)`:
load the fallback file first, then the main file, over a fresh
`NewMenderShellConfig`; abort on the first error.  Returns the merged
configuration together with the count of files successfully loaded. -/
def LoadConfig (mainConfigFile fallbackConfigFile : ConfigFile) :
    Except String (MenderShellConfig × Nat) := do
  let (c, n) ← loadConfigFile fallbackConfigFile NewMenderShellConfig 0
  let (c, n) ← loadConfigFile mainConfigFile c n
  return (c, n)

/-- `func maybeHTTPSClient(c *MenderShellConfig) *https.Client`: run the
HTTPS client's validation, then return the client config only when both
certificate and key are provided. -/
def maybeHTTPSClient (c : MenderShellConfig) : Option https.Client :=
  let hc := c.HTTPSClient.Validate
  if hc.Certificate ≠ "" ∧ hc.Key ≠ "" then some hc else none

/-- `func (c *MenderShellConfig) GetHTTPConfig() https.Config` -/
def MenderShellConfig.GetHTTPConfig (c : MenderShellConfig) : https.Config :=
  { ServerCert := c.ServerCertificate
    IsHTTPS := c.ClientProtocol == httpsSchema
    Client := maybeHTTPSClient c
    NoVerify := c.SkipVerify }

/-- The server list `Validate`'s normalization loop runs over, before any
entry is normalized: the synthesized one-element list when `Servers` is
`nil`, the explicit list otherwise. -/
def preServers (c : MenderShellConfig) : List https.MenderServer :=
  match c.Servers with
  | none => [{ ServerURL := c.ServerURL }]
  | some l => l

/-- A configuration that sets both the legacy `ServerURL` and an explicit
`Servers` list. -/
def conflictConfig : MenderShellConfig :=
  { NewMenderShellConfig with
      ServerURL := "http://a"
      Servers := some [{ ServerURL := "http://b" }] }

/-- A configuration whose only server URL ends in a double slash. -/
def doubleSlashConfig : MenderShellConfig :=
  { NewMenderShellConfig with Servers := some [{ ServerURL := "http://a//" }] }

/-- A configuration that sets only the legacy `ServerURL`. -/
def legacyOnlyConfig : MenderShellConfig :=
  { NewMenderShellConfig with ServerURL := "http://a" }

/-- A configuration with a present but zero-length `Servers` list and an
empty legacy `ServerURL`. -/
def emptyListConfig : MenderShellConfig :=
  { NewMenderShellConfig with Servers := some ([] : List https.MenderServer) }

/-! ## Helper lemmas -/

/-- Characterization of a successful `Validate` call: the resulting
configuration is the input with `Servers` replaced by the normalized
pre-normalization list and the HTTPS client validated. -/
theorem validate_ok_spec (c c' : MenderShellConfig) (h : c.Validate = (none, c')) :
    c' = { c with
            Servers := some ((preServers c).map normalizeServer)
            HTTPSClient := c.HTTPSClient.Validate } := by
  obtain ⟨cp, hcl, sv, sc, su, srv, sh, us⟩ := c
  cases srv with
  | none =>
      simp only [MenderShellConfig.Validate, finishValidate, preServers,
        Option.map_some', Prod.mk.injEq] at h ⊢
      exact h.2.symm
  | some l =>
      by_cases hu : su = ""
      · simp only [MenderShellConfig.Validate, hu, ne_eq, not_true_eq_false,
          if_false, finishValidate, preServers, Option.map_some',
          Prod.mk.injEq] at h ⊢
        exact h.2.symm
      · simp only [MenderShellConfig.Validate, ne_eq, hu, not_false_eq_true,
          if_true, Prod.mk.injEq] at h
        exact absurd h.1.symm (by simp)

/-! ## Claim theorems -/

/-- C1: `Validate` returns an error if and only if the `Servers` list is
present (non-nil) and the legacy `ServerURL` field is simultaneously
non-empty; in that conflict case it fails before performing any URL
normalization, leaving the configuration unmodified, and in every other
case it returns no error. -/
theorem validate_error_iff_conflict (c : MenderShellConfig) :
    (c.Validate.1 ≠ none ↔ c.Servers ≠ none ∧ c.ServerURL ≠ "") ∧
    (c.Validate.1 ≠ none → c.Validate.2 = c) := by
  obtain ⟨cp, hcl, sv, sc, su, srv, sh, us⟩ := c
  cases srv with
  | none => simp [MenderShellConfig.Validate, finishValidate]
  | some l =>
      by_cases hu : su = "" <;>
        simp [MenderShellConfig.Validate, finishValidate, hu]

/-- C1 witness: on a concrete conflicting configuration, `Validate` errors
and leaves the configuration unmodified. -/
theorem validate_error_iff_conflict_witness :
    conflictConfig.Validate.1 ≠ none ∧ conflictConfig.Validate.2 = conflictConfig :=
  ⟨(validate_error_iff_conflict conflictConfig).1.mpr (by decide),
   (validate_error_iff_conflict conflictConfig).2 (by decide)⟩

/-- C7: when neither configuration file exists, `LoadConfig` returns the
default-initialized configuration with no error, and the count of loaded
files is 0; a missing file is always skipped silently, never treated as an
error. -/
theorem loadConfig_missing_files_defaults :
    LoadConfig ConfigFile.missing ConfigFile.missing =
      Except.ok (NewMenderShellConfig, 0) ∧
    ∀ (c : MenderShellConfig) (n : Nat),
      loadConfigFile ConfigFile.missing c n = Except.ok (c, n) :=
  ⟨rfl, fun _ _ => rfl⟩

/-- C9: `GetHTTPConfig` surfaces a non-nil `Client` field in the returned
HTTP config if and only if both the HTTPS client's `Certificate` and `Key`
fields are non-empty. -/
theorem getHTTPConfig_client_iff_cert_and_key (c : MenderShellConfig) :
    c.GetHTTPConfig.Client ≠ none ↔
      c.HTTPSClient.Certificate ≠ "" ∧ c.HTTPSClient.Key ≠ "" := by
  by_cases h1 : c.HTTPSClient.Certificate = "" <;>
    by_cases h2 : c.HTTPSClient.Key = "" <;>
      simp [MenderShellConfig.GetHTTPConfig, maybeHTTPSClient,
        https.Client.Validate, h1, h2]

/-- C10: `Validate` mutates only the `Servers` field (and delegates the
embedded HTTPS client to its own validation); every other field — the
legacy `ServerURL` (never cleared), `ClientProtocol`, `SkipVerify`,
`ServerCertificate`, `ShellCommand` and `User` — is left unchanged by every
call to `Validate`. -/
theorem validate_frame_only_servers (c : MenderShellConfig) :
    c.Validate.2.ClientProtocol = c.ClientProtocol ∧
    c.Validate.2.SkipVerify = c.SkipVerify ∧
    c.Validate.2.ServerCertificate = c.ServerCertificate ∧
    c.Validate.2.ServerURL = c.ServerURL ∧
    c.Validate.2.ShellCommand = c.ShellCommand ∧
    c.Validate.2.User = c.User ∧
    c.Validate.2.HTTPSClient = c.HTTPSClient.Validate := by
  obtain ⟨cp, hcl, sv, sc, su, srv, sh, us⟩ := c
  cases srv with
  | none =>
      simp [MenderShellConfig.Validate, finishValidate, https.Client.Validate]
  | some l =>
      by_cases hu : su = "" <;>
        simp [MenderShellConfig.Validate, finishValidate,
          https.Client.Validate, hu]

/-- C3 counterexample: a server URL ending in `//` is stripped only once, so
`Validate` returns without error yet the final list still contains a URL
ending in a trailing `/`. -/
theorem validate_trailing_slash_counterexample :
    doubleSlashConfig.Validate.1 = none ∧
    doubleSlashConfig.Validate.2.Servers = some [{ ServerURL := "http://a/" }] ∧
    "http://a/".data.getLast? = some '/' := by decide

/-- C3 (amended): after `Validate` returns without error, each server URL in
the final `Servers` sequence is the corresponding pre-normalization URL with
exactly one trailing `/` stripped if present — so an entry can still end in
`/` when its input ended in `//`; in particular `ServerURL = "http://a/"`
with no explicit list yields a single-entry list with URL `"http://a"` and
no error. -/
theorem validate_strips_one_trailing_slash (c c' : MenderShellConfig)
    (h : c.Validate = (none, c')) :
    (∃ l, c'.Servers = some l ∧
      List.Forall₂ (fun s t =>
        (s.ServerURL.data.getLast? ≠ some '/' ∧ t = s) ∨
        s.ServerURL.data = t.ServerURL.data ++ ['/'])
        (preServers c) l) ∧
    (MenderShellConfig.Validate
        { NewMenderShellConfig with ServerURL := "http://a/" }).2.Servers =
      some [{ ServerURL := "http://a" }] ∧
    (MenderShellConfig.Validate
        { NewMenderShellConfig with ServerURL := "http://a/" }).1 = none := by
  refine ⟨⟨(preServers c).map normalizeServer, ?_, ?_⟩, by decide, by decide⟩
  · rw [validate_ok_spec c c' h]
  · rw [List.forall₂_map_right_iff, List.forall₂_same]
    intro s _
    by_cases hl : s.ServerURL.data.getLast? = some '/'
    · right
      obtain ⟨ys, hys⟩ := List.getLast?_eq_some_iff.mp hl
      simp [normalizeServer, trimServerURL, hl, hys, List.dropLast_concat]
    · left
      refine ⟨hl, ?_⟩
      simp [normalizeServer, trimServerURL, hl]

/-- C3 witness: the amended normalization statement at the concrete input
`ServerURL = "http://a/"` with no explicit list. -/
theorem validate_strips_one_trailing_slash_witness :
    ∃ l, (MenderShellConfig.Validate
        { NewMenderShellConfig with ServerURL := "http://a/" }).2.Servers =
          some l ∧
      List.Forall₂ (fun s t =>
        (s.ServerURL.data.getLast? ≠ some '/' ∧ t = s) ∨
        s.ServerURL.data = t.ServerURL.data ++ ['/'])
        (preServers { NewMenderShellConfig with ServerURL := "http://a/" }) l :=
  (validate_strips_one_trailing_slash
    { NewMenderShellConfig with ServerURL := "http://a/" }
    (MenderShellConfig.Validate
      { NewMenderShellConfig with ServerURL := "http://a/" }).2 (by decide)).1

/-- C4 counterexample: `Validate` succeeds on a configuration with only the
legacy `ServerURL` set, but — since `ServerURL` is never cleared — a second
call sees both `Servers` and `ServerURL` set and returns the conflict
error. -/
theorem validate_not_idempotent_counterexample :
    legacyOnlyConfig.Validate.1 = none ∧
    legacyOnlyConfig.Validate.2.Validate.1 =
      some "Both Servers AND ServerURL given in mender-shell.conf" := by decide

/-- C4 (amended): `Validate` is idempotent only on already-validated
configurations whose legacy `ServerURL` is empty and none of whose
normalized URLs still ends in `/`: under those conditions a second call
returns no error and changes nothing.  (When the first call synthesized
`Servers` from a non-empty `ServerURL`, a second call instead fails with the
conflict error, because `ServerURL` is never cleared; and a URL that still
ends in `/` after the first call would be stripped again.) -/
theorem validate_idem_of_empty_legacy (c c' : MenderShellConfig)
    (h : c.Validate = (none, c')) (hu : c'.ServerURL = "")
    (hs : ∀ s ∈ c'.Servers.getD [], s.ServerURL.data.getLast? ≠ some '/') :
    c'.Validate = (none, c') := by
  have hsv : c'.Servers = some ((preServers c).map normalizeServer) := by
    rw [validate_ok_spec c c' h]
  rw [hsv] at hs
  have hmap : List.map normalizeServer ((preServers c).map normalizeServer) =
      (preServers c).map normalizeServer := by
    refine (List.map_congr_left ?_).trans (List.map_id _)
    intro s hm
    have hns := hs s (by simpa using hm)
    simp [normalizeServer, trimServerURL, hns]
  have hgoal : c'.Validate = (none, { c' with
      Servers := some ((preServers c).map normalizeServer)
      HTTPSClient := c'.HTTPSClient.Validate }) := by
    simp [MenderShellConfig.Validate, hsv, hu, finishValidate, hmap]
  rw [hgoal, ← hsv]
  rfl

/-- C4 witness: re-validating the default configuration after a first
successful validation changes nothing and reports no error. -/
theorem validate_idem_of_empty_legacy_witness :
    NewMenderShellConfig.Validate.2.Validate =
      (none, NewMenderShellConfig.Validate.2) :=
  validate_idem_of_empty_legacy NewMenderShellConfig
    NewMenderShellConfig.Validate.2 (by decide) (by decide) (by decide)

/-- C5 counterexample: with an empty `ServerURL` and a present but
zero-length `Servers` list, `Validate` succeeds yet leaves the list with
zero entries instead of producing one entry with an empty URL. -/
theorem validate_empty_list_counterexample :
    emptyListConfig.ServerURL = "" ∧
    emptyListConfig.Validate.1 = none ∧
    emptyListConfig.Validate.2.Servers = some [] := by decide

/-- C5 (amended): for every configuration whose `ServerURL` is empty and
whose `Servers` list is nil/absent, `Validate` succeeds without error and
produces a `Servers` sequence containing exactly one entry whose URL is
empty.  (A present but zero-length list is instead left at zero entries.) -/
theorem validate_empty_synthesizes_one_entry (c : MenderShellConfig)
    (hu : c.ServerURL = "") (hs : c.Servers = none) :
    c.Validate.1 = none ∧
    c.Validate.2.Servers = some [{ ServerURL := "" }] := by
  have h1 : c.Validate.1 = none := by
    simp [MenderShellConfig.Validate, hs, finishValidate]
  have h := validate_ok_spec c c.Validate.2 (by rw [← h1])
  refine ⟨h1, ?_⟩
  rw [h]
  simp [preServers, hs, hu, normalizeServer, trimServerURL]

/-- C5 witness: the default configuration (empty `ServerURL`, nil `Servers`)
validates without error into a single entry with an empty URL. -/
theorem validate_empty_synthesizes_one_entry_witness :
    NewMenderShellConfig.Validate.1 = none ∧
    NewMenderShellConfig.Validate.2.Servers = some [{ ServerURL := "" }] :=
  validate_empty_synthesizes_one_entry NewMenderShellConfig rfl rfl

/-- C2: when both configuration files exist and parse successfully,
`LoadConfig` produces the merge of fallback-then-main over the defaults
(with a loaded-file count of 2), and for every key the merged value is the
main file's value when the main file sets it, otherwise the fallback's
value when the fallback sets it, otherwise the default — so the main file
wins for keys present in both, and keys absent from the main file leave the
fallback's values untouched. -/
theorem loadConfig_merge_main_over_fallback (pf pm : ConfigFileFields) :
    LoadConfig (ConfigFile.present (FileData.fields pm))
        (ConfigFile.present (FileData.fields pf)) =
      Except.ok (mergeFields (mergeFields NewMenderShellConfig pf) pm, 2) ∧
    (mergeFields (mergeFields NewMenderShellConfig pf) pm).ClientProtocol =
      pm.ClientProtocol.getD
        (pf.ClientProtocol.getD NewMenderShellConfig.ClientProtocol) ∧
    (mergeFields (mergeFields NewMenderShellConfig pf) pm).HTTPSClient =
      pm.HTTPSClient.getD
        (pf.HTTPSClient.getD NewMenderShellConfig.HTTPSClient) ∧
    (mergeFields (mergeFields NewMenderShellConfig pf) pm).SkipVerify =
      pm.SkipVerify.getD
        (pf.SkipVerify.getD NewMenderShellConfig.SkipVerify) ∧
    (mergeFields (mergeFields NewMenderShellConfig pf) pm).ServerCertificate =
      pm.ServerCertificate.getD
        (pf.ServerCertificate.getD NewMenderShellConfig.ServerCertificate) ∧
    (mergeFields (mergeFields NewMenderShellConfig pf) pm).ServerURL =
      pm.ServerURL.getD
        (pf.ServerURL.getD NewMenderShellConfig.ServerURL) ∧
    (mergeFields (mergeFields NewMenderShellConfig pf) pm).Servers =
      (pm.Servers.orElse fun _ =>
        pf.Servers.orElse fun _ => NewMenderShellConfig.Servers) ∧
    (mergeFields (mergeFields NewMenderShellConfig pf) pm).ShellCommand =
      pm.ShellCommand.getD
        (pf.ShellCommand.getD NewMenderShellConfig.ShellCommand) ∧
    (mergeFields (mergeFields NewMenderShellConfig pf) pm).User =
      pm.User.getD (pf.User.getD NewMenderShellConfig.User) :=
  ⟨rfl, rfl, rfl, rfl, rfl, rfl, rfl, rfl, rfl⟩

/-- C6: a file that exists but holds malformed JSON makes `LoadConfig`
abort immediately with an error instead of any (partial) configuration —
whether the malformed file is the fallback (the main file is then never
consulted, for every state of the main file) or the main file — and the
error message distinguishes JSON syntax errors from other decode errors. -/
theorem loadConfig_malformed_json_errors (msg : String) (m : ConfigFile)
    (p : ConfigFileFields) :
    LoadConfig m (ConfigFile.present (FileData.syntaxErr msg)) =
      Except.error ("Error parsing mender configuration file: " ++ msg) ∧
    LoadConfig m (ConfigFile.present (FileData.decodeErr msg)) =
      Except.error ("Error parsing config file: " ++ msg) ∧
    LoadConfig (ConfigFile.present (FileData.syntaxErr msg)) ConfigFile.missing =
      Except.error ("Error parsing mender configuration file: " ++ msg) ∧
    LoadConfig (ConfigFile.present (FileData.syntaxErr msg))
        (ConfigFile.present (FileData.fields p)) =
      Except.error ("Error parsing mender configuration file: " ++ msg) ∧
    LoadConfig (ConfigFile.present (FileData.decodeErr msg)) ConfigFile.missing =
      Except.error ("Error parsing config file: " ++ msg) ∧
    LoadConfig (ConfigFile.present (FileData.decodeErr msg))
        (ConfigFile.present (FileData.fields p)) =
      Except.error ("Error parsing config file: " ++ msg) ∧
    ("Error parsing mender configuration file: " ++ msg) ≠
      ("Error parsing config file: " ++ msg) := by
  refine ⟨rfl, rfl, rfl, rfl, rfl, rfl, ?_⟩
  intro hEq
  have hlen := congrArg String.length hEq
  rw [String.length_append, String.length_append] at hlen
  have h41 : ("Error parsing mender configuration file: ").length = 41 := by decide
  have h27 : ("Error parsing config file: ").length = 27 := by decide
  rw [h41, h27] at hlen
  omega

/-- C6 witness: a concrete malformed fallback file aborts the whole load
with the syntax-error message. -/
theorem loadConfig_malformed_json_errors_witness :
    LoadConfig ConfigFile.missing (ConfigFile.present (FileData.syntaxErr "x")) =
      Except.error ("Error parsing mender configuration file: " ++ "x") :=
  (loadConfig_malformed_json_errors "x" ConfigFile.missing {}).1

/-- C9 witness: a concrete configuration with both certificate and key set
yields a non-nil client in the HTTP config. -/
theorem getHTTPConfig_client_iff_cert_and_key_witness :
    ({ NewMenderShellConfig with
        HTTPSClient := { Certificate := "cert.pem", Key := "key.pem" } } :
      MenderShellConfig).GetHTTPConfig.Client ≠ none :=
  (getHTTPConfig_client_iff_cert_and_key _).mpr (by decide)
